import Mathlib

/-!
Shallow embedding of ScryfallCardGolf/card_golf.py.

Modelling conventions:
- Timestamps are Nat seconds.  The source keys its JSON log with
  strftime of format %Y-%m-%d_%H:%M:%S, a zero-padded fixed-width format
  whose lexicographic order over well-formed keys coincides with
  chronological order, and compares datetimes; both are embedded as Nat
  comparisons.  timedelta of one day is 86400 seconds.
- The JSON log file is modelled as Option TweetDb: none is a missing
  file, some content is an existing file whose parsed content is the
  association list.  json.dumps followed by json.load is the identity on
  string-keyed objects up to key ordering (dumps sorts keys), and all
  statements about file contents are made through lookup and length,
  which are invariant under that reordering.
- External services (Scryfall search, the Twitter client, PIL) are
  embedded as explicit environments or concrete functions; the parts of
  PIL the source calls (open, paste, thumbnail, save) are modelled at
  the pixel level with the documented fit-in-box semantics of thumbnail.
- A Python exception that the source does not catch is modelled as the
  value none of an Option-returning function; a caught exception is
  modelled by the value the handler returns.
-/

namespace ScryfallCardGolf

/-- The empty string, the rejection value returned by test_query. -/
def emptyQuery : String := ""

/-- The disallowed connective checked by test_query. -/
def orConnective : String := "or"

/-- The domain filter applied to submitted urls in get_results. -/
def scryfallDomain : String := "scryfall.com"

/-- Bool test that a list of characters occurs contiguously inside another. -/
def charsContain (needle : List Char) : List Char → Bool
  | [] => needle.isEmpty
  | c :: rest => needle.isPrefixOf (c :: rest) || charsContain needle rest

/-- Bool test that needle occurs as a substring of hay, the embedding of
the Python expression needle in hay on str. -/
def strContains (needle hay : String) : Bool :=
  charsContain needle.toList hay.toList

/-- Python str.lower, character by character over the underlying list. -/
def str_lower (s : String) : String :=
  String.mk (s.data.map Char.toLower)

/-! ## Images (PIL model) -/

/-- A raster image: dimensions plus a pixel function (colour values are
abstract Nat codes). -/
structure Image where
  width : Nat
  height : Nat
  pix : Nat → Nat → Nat

/-- Resampling an image to new dimensions, the pixel-level model of
PIL resize inside thumbnail: each target pixel reads the source pixel at
the proportionally scaled coordinate. -/
def resample (im : Image) (w h : Nat) : Image :=
  ⟨w, h, fun x y => im.pix (x * im.width / w) (y * im.height / h)⟩

/-- PIL Image.thumbnail with box (1024, 512): a no-op when the image
already fits the box, otherwise an in-place downscale to the largest
size that fits, preserving the aspect ratio with floor rounding. -/
def thumbnail (im : Image) : Image :=
  if im.width ≤ 1024 ∧ im.height ≤ 512 then im
  else if im.height * 1024 ≤ im.width * 512 then
    resample im 1024 (im.height * 1024 / im.width)
  else
    resample im (im.width * 512 / im.height) 512

/-- A local image file: its raster content and whether PIL can open it
(an unreadable file raises IOError inside resize_image). -/
structure ImageFile where
  content : Image
  readable : Bool

/-- resize_image from card_golf.py lines 59 to 71.  Returns the new file
state and whether the IOError handler logged an error.  On a readable
file the image is thumbnailed in place; on IOError the handler logs and
the file is left untouched, and no exception escapes (the function is
total). -/
def resize_image (f : ImageFile) : ImageFile × Bool :=
  if f.readable then (⟨thumbnail f.content, f.readable⟩, false)
  else (f, true)

/-- PIL paste of image im onto canvas at horizontal offset x0 (vertical
offset 0): pixels inside the pasted rectangle come from im, others are
unchanged.  Dimensions are the canvas dimensions. -/
def pasteAt (canvas : Image) (im : Image) (x0 : Nat) : Image :=
  ⟨canvas.width, canvas.height, fun x y =>
    if x0 ≤ x ∧ x < x0 + im.width ∧ y < im.height then im.pix (x - x0) y
    else canvas.pix x y⟩

/-- The paste loop of merge_card_images: paste each image at the running
horizontal offset, advancing the offset by the pasted width. -/
def pasteRow (canvas : Image) (x0 : Nat) : List Image → Image
  | [] => canvas
  | im :: rest => pasteRow (pasteAt canvas im x0) (x0 + im.width) rest

/-- merge_card_images from card_golf.py lines 113 to 144, over the list
of opened card images: a new RGB canvas of width the sum of the widths
and height the maximum of the heights (Python max over the nonempty
list of heights, here foldr with the neutral 0), onto which the images
are pasted left to right at cumulative offsets. -/
def merge_card_images (imgs : List Image) : Image :=
  pasteRow
    ⟨(imgs.map Image.width).sum,
     (imgs.map Image.height).foldr Nat.max 0,
     fun _ _ => 0⟩
    0 imgs

/-! ## Twitter posting -/

/-- The Twitter client environment seen by send_tweet: whether posting a
given message raises UnicodeDecodeError, and the id of the post created
for it otherwise. -/
structure TwitterEnv where
  encodable : String → Bool
  post_id : String → Int

/-- send_tweet from card_golf.py lines 74 to 95.  If the media argument
is None the body is skipped and the fallthrough returns -1; otherwise
the image file is first resized in place, the status is posted, and the
id of the new post is returned, except that UnicodeDecodeError during
posting is caught and -1 returned.  The returned pair is the result and
the final media file state. -/
def send_tweet (env : TwitterEnv) (message : String) (media : Option ImageFile) :
    Int × Option ImageFile :=
  match media with
  | none => (-1, none)
  | some f =>
    let f2 := (resize_image f).1
    if env.encodable message then (env.post_id message, some f2)
    else (-1, some f2)

/-! ## The JSON log -/

/-- A card reference persisted in the log: name and Scryfall url. -/
structure CardRef where
  name : String
  url : String
deriving DecidableEq

/-- A contest entry of the tweet database: tweet id and the contest
cards. -/
structure ContestEntry where
  tweet_id : Int
  cards : List CardRef
deriving DecidableEq

/-- The parsed dict-shaped JSON log: timestamp key to contest entry, in
insertion order. -/
abbrev TweetDb := List (Nat × ContestEntry)

/-- Python dict assignment feeds with key k set to v: replaces the value
at an existing key in place, otherwise appends the new binding. -/
def dictInsert (feeds : TweetDb) (k : Nat) (v : ContestEntry) : TweetDb :=
  match feeds with
  | [] => [(k, v)]
  | (k0, v0) :: rest =>
    if k0 = k then (k, v) :: rest else (k0, v0) :: dictInsert rest k v

/-- write_to_json_db from card_golf.py lines 147 to 177, in the dict
entry case (the isinstance branch taken for contest entries; the list
branch serves the per-contest results files and is not modelled here).
The argument now is the current wall-clock second, the value of
strftime at write time.  Returns the content written to the file. -/
def write_to_json_db (file : Option TweetDb) (now : Nat) (entry : ContestEntry) : TweetDb :=
  match file with
  | none => [(now, entry)]
  | some feeds => dictInsert feeds now entry

/-- load_json_db from card_golf.py lines 180 to 190: a missing file
loads as the empty dict, otherwise the parsed file content. -/
def load_json_db (file : Option TweetDb) : TweetDb :=
  match file with
  | none => []
  | some feeds => feeds

/-- Python subscript json_db with a key: the value at the first binding
of the key, none when absent. -/
def lookupDb : TweetDb → Nat → Option ContestEntry
  | [], _ => none
  | (k0, v) :: rest, k => if k0 = k then some v else lookupDb rest k

/-- Python max over json_db.keys(): none models the ValueError raised on
an empty dict. -/
def max_key (db : TweetDb) : Option Nat :=
  (db.map Prod.fst).max?

/-! ## Contest liveness -/

/-- Observable outcome of is_active_contest_already: the returned
boolean, whether the empty-database warning was logged, and whether the
results-scanning flow (write_results of get_results) ran. -/
structure LivenessResult where
  active : Bool
  warned_empty : Bool
  ran_results_scan : Bool
deriving DecidableEq

/-- is_active_contest_already from card_golf.py lines 193 to 215.  Loads
the log, takes the maximum key; ValueError on an empty dict is caught,
a warning logged and false returned.  Otherwise the contest end is the
parsed key plus one day, and the contest is active iff that end is
still in the future; when it is not, the results flow runs and false is
returned. -/
def is_active_contest_already (file : Option TweetDb) (now : Nat) : LivenessResult :=
  match max_key (load_json_db file) with
  | none => ⟨false, true, false⟩
  | some k =>
    if now < k + 86400 then ⟨true, false, false⟩
    else ⟨false, false, true⟩

/-! ## Query validation (test_query) -/

/-- A Scryfall search response as used by test_query: the reported total
and the names of the returned card objects (the only field the source
reads from each card). -/
structure SearchResponse where
  total_cards : Nat
  data : List String

/-- External environment of the results scan: extraction of the q query
parameter from a submitted url (urlparse plus parse_qs; none models the
KeyError on a url without q), and the Scryfall search oracle, the
download of the search api url formatted with the query. -/
structure ScryEnv where
  parseQ : String → Option String
  search : String → SearchResponse

/-- test_query from card_golf.py lines 218 to 253.  Extracts the query
from the url (KeyError is caught and the empty string returned),
re-issues the search, logs but does not act on a total_cards different
from 2, loads the log, takes its maximum key and reads the two contest
card names under it, rejects (empty string) if any returned card name
is not among the two, rejects if the lowercased query contains the
disallowed connective as a substring, and otherwise accepts, returning
the query.  The value none models an exception the except KeyError
handler does not catch: the ValueError of max on an empty log, or the
IndexError of reading cards 0 and 1 from a malformed entry. -/
def test_query (env : ScryEnv) (db : TweetDb) (scryfall_url : String) : Option String :=
  match env.parseQ scryfall_url with
  | none => some emptyQuery
  | some query =>
    let response := env.search query
    match max_key db with
    | none => none
    | some k =>
      match lookupDb db k with
      | none => none
      | some entry =>
        match entry.cards with
        | c0 :: c1 :: _ =>
          let valid_cards := [c0.name, c1.name]
          if response.data.all (fun n => valid_cards.contains n) then
            if strContains orConnective (str_lower query) then some emptyQuery
            else some query
          else some emptyQuery
        | _ => none

/-! ## Results scan (get_results) -/

/-- A valid entry collected by get_results: entrant name, query length
and query text. -/
structure ResultEntry where
  name : String
  length : Nat
  query : String
deriving DecidableEq

/-- One item of the paged search iterator: a tweet (an item with a text
field, carrying its author and the expanded urls of its entities) or a
platform status message (an item without text, with or without a
message field, and its error code). -/
inductive StreamItem where
  | tweet (screen_name : String) (urls : List String)
  | status (has_message : Bool) (code : Nat)
deriving DecidableEq

/-- The two loop-breaking conditions of get_results: a tweet authored by
the bot account, or a status with a message and error code 88. -/
def is_trigger (bot : String) : StreamItem → Bool
  | .tweet screen_name _ => screen_name == bot
  | .status has_message code => has_message && code == 88

/-- The inner url loop of get_results for one tweet: for each expanded
url containing the Scryfall domain, run test_query and collect a result
entry when the returned query is nonempty.  none propagates an uncaught
exception from test_query. -/
def process_urls (env : ScryEnv) (db : TweetDb) (user : String) :
    List String → Option (List ResultEntry)
  | [] => some []
  | u :: us =>
    if strContains scryfallDomain u then
      match test_query env db u with
      | none => none
      | some q =>
        match process_urls env db user us with
        | none => none
        | some rest =>
          some ((if q.length > 0 then [⟨user, q.length, q⟩] else []) ++ rest)
    else process_urls env db user us

/-- get_results from card_golf.py lines 256 to 287, over the list of
items the pager yields.  Tweets are processed in order, their urls
scanned for submissions; after processing a tweet authored by the bot
account the loop breaks, and a rate-limit status (message present, code
88) breaks the loop immediately.  Other statuses are skipped.  Returns
the collected valid entries, or none when an uncaught exception
escapes. -/
def get_results (env : ScryEnv) (db : TweetDb) (bot : String) :
    List StreamItem → Option (List ResultEntry)
  | [] => some []
  | .tweet screen_name urls :: rest =>
    match process_urls env db screen_name urls with
    | none => none
    | some es =>
      if screen_name == bot then some es
      else
        match get_results env db bot rest with
        | none => none
        | some more => some (es ++ more)
  | .status has_message code :: rest =>
    if has_message && code == 88 then some []
    else get_results env db bot rest

/-! ## Helper lemmas about the log -/

/-- Inserting at a key present in the dict keeps every earlier binding
count: the length is unchanged. -/
theorem dictInsert_length_of_mem (now : Nat) (v : ContestEntry) :
    ∀ feeds : TweetDb, now ∈ feeds.map Prod.fst →
      (dictInsert feeds now v).length = feeds.length := by
  intro feeds
  induction feeds with
  | nil => intro h; simp at h
  | cons p rest ih =>
    intro h
    obtain ⟨k0, v0⟩ := p
    by_cases hk : k0 = now
    · simp [dictInsert, hk]
    · have h2 : now ∈ rest.map Prod.fst := by
        rw [List.map_cons] at h
        rcases List.mem_cons.mp h with h3 | h3
        · exact absurd h3.symm hk
        · exact h3
      simp [dictInsert, hk, ih h2]

/-- Looking up the inserted key always yields the inserted value. -/
theorem lookup_dictInsert_self (now : Nat) (v : ContestEntry) :
    ∀ feeds : TweetDb, lookupDb (dictInsert feeds now v) now = some v := by
  intro feeds
  induction feeds with
  | nil => simp [dictInsert, lookupDb]
  | cons p rest ih =>
    obtain ⟨k0, v0⟩ := p
    by_cases hk : k0 = now
    · simp [dictInsert, hk, lookupDb]
    · simp [dictInsert, hk, lookupDb, ih]

/-- Inserting at a key absent from the dict leaves every other lookup
unchanged and maps the new key to the new value. -/
theorem lookup_dictInsert_fresh (now : Nat) (v : ContestEntry) :
    ∀ feeds : TweetDb, now ∉ feeds.map Prod.fst → ∀ k,
      lookupDb (dictInsert feeds now v) k
        = if k = now then some v else lookupDb feeds k := by
  intro feeds
  induction feeds with
  | nil =>
    intro _ k
    by_cases hk : k = now
    · simp [dictInsert, lookupDb, hk]
    · have hk2 : ¬ (now = k) := fun e => hk e.symm
      simp [dictInsert, lookupDb, hk, hk2]
  | cons p rest ih =>
    intro h k
    obtain ⟨k0, v0⟩ := p
    have hk0 : ¬ (k0 = now) := by
      intro e
      exact h (by simp [e])
    have h2 : now ∉ rest.map Prod.fst := by
      intro e
      exact h (by simp [e])
    by_cases hkk : k0 = k
    · have hkn : ¬ (k = now) := by
        intro e
        exact hk0 (hkk.trans e)
      simp [dictInsert, hk0, lookupDb, hkk, hkn]
    · simp [dictInsert, hk0, lookupDb, hkk, ih h2 k]

/-- Concrete contest entries used in closed statements. -/
def entryA : ContestEntry := ⟨1, []⟩

/-- Second concrete contest entry, distinct from entryA. -/
def entryB : ContestEntry := ⟨2, []⟩

/-! ## Claim theorems: the JSON log -/

/-- C3 (counterexample): writing an entry whose creation timestamp
collides with an existing key does not preserve the prior entry: the
binding of key 5 to entryA is present before the write and absent from
the read-back after writing entryB in the same second 5. -/
theorem write_to_json_db_drops_colliding_entry :
    (5, entryA) ∈ load_json_db (some [(5, entryA)])
    ∧ (5, entryA) ∉
        load_json_db (some (write_to_json_db (some [(5, entryA)]) 5 entryB)) := by
  decide

/-- C3 (amended): for every existing dict-shaped log file whose keys do
not already contain the creation timestamp, writing an entry with
write_to_json_db and then reading with load_json_db yields a mapping
with all prior entries unchanged plus the new entry keyed by that
timestamp: the lookup of the new key is the new entry and every other
lookup agrees with the prior file. -/
theorem write_then_load_preserves_fresh_key (prior : TweetDb) (now : Nat)
    (entry : ContestEntry) (h : now ∉ prior.map Prod.fst) (k : Nat) :
    lookupDb (load_json_db (some (write_to_json_db (some prior) now entry))) k
      = if k = now then some entry else lookupDb prior k := by
  show lookupDb (dictInsert prior now entry) k = _
  exact lookup_dictInsert_fresh now entry prior h k

/-- C3 witness: a concrete fresh-key write, checked at the new key and
at a prior key. -/
theorem write_then_load_preserves_fresh_key_witness :
    ((5 : Nat) ∉ ([((3 : Nat), entryA)].map Prod.fst))
    ∧ (lookupDb (load_json_db (some (write_to_json_db (some [(3, entryA)]) 5 entryB))) 5
        = if 5 = 5 then some entryB else lookupDb [(3, entryA)] 5)
    ∧ (lookupDb (load_json_db (some (write_to_json_db (some [(3, entryA)]) 5 entryB))) 3
        = if 3 = 5 then some entryB else lookupDb [(3, entryA)] 3) :=
  ⟨by decide,
   write_then_load_preserves_fresh_key [(3, entryA)] 5 entryB (by decide) 5,
   write_then_load_preserves_fresh_key [(3, entryA)] 5 entryB (by decide) 3⟩

/-- C10: write_to_json_db keys a dict entry by the current wall-clock
second; when the file already holds an entry under that same timestamp
key, the write replaces it in place: the number of entries does not
increase and the key now maps to the new entry. -/
theorem write_to_json_db_same_second_replaces (feeds : TweetDb) (now : Nat)
    (entry : ContestEntry) (h : now ∈ feeds.map Prod.fst) :
    (write_to_json_db (some feeds) now entry).length = feeds.length
    ∧ lookupDb (write_to_json_db (some feeds) now entry) now = some entry := by
  constructor
  · exact dictInsert_length_of_mem now entry feeds h
  · exact lookup_dictInsert_self now entry feeds

/-- C10 witness: a concrete same-second write on a one-entry file. -/
theorem write_to_json_db_same_second_replaces_witness :
    ((5 : Nat) ∈ ([((5 : Nat), entryA)].map Prod.fst))
    ∧ (write_to_json_db (some [(5, entryA)]) 5 entryB).length = [(5, entryA)].length
    ∧ lookupDb (write_to_json_db (some [(5, entryA)]) 5 entryB) 5 = some entryB :=
  ⟨by decide,
   (write_to_json_db_same_second_replaces [(5, entryA)] 5 entryB (by decide)).1,
   (write_to_json_db_same_second_replaces [(5, entryA)] 5 entryB (by decide)).2⟩

/-! ## Claim theorems: contest liveness -/

/-- C2: for every log file with a maximum timestamp key, the liveness
check returns true exactly when the current time is within 24 hours
(86400 seconds) after that key: true when now is earlier than the key
plus one day, false otherwise. -/
theorem is_active_contest_iff_within_24h (file : Option TweetDb) (now k : Nat)
    (hk : max_key (load_json_db file) = some k) :
    (is_active_contest_already file now).active = true ↔ now < k + 86400 := by
  unfold is_active_contest_already
  rw [hk]
  by_cases h : now < k + 86400 <;> simp [h]

/-- C2 witness: a one-entry log with key 100, checked at a time inside
the window. -/
theorem is_active_contest_iff_within_24h_witness :
    max_key (load_json_db (some [(100, entryA)])) = some 100
    ∧ ((is_active_contest_already (some [(100, entryA)]) 150).active = true
        ↔ 150 < 100 + 86400) :=
  ⟨by decide, is_active_contest_iff_within_24h (some [(100, entryA)]) 150 100 (by decide)⟩

/-- C4: on a missing file and on an empty log alike, the liveness check
returns false, logs the empty-database warning, and does not run the
results-scanning flow. -/
theorem is_active_contest_empty_or_missing (now : Nat) :
    is_active_contest_already none now = ⟨false, true, false⟩
    ∧ is_active_contest_already (some []) now = ⟨false, true, false⟩ :=
  ⟨rfl, rfl⟩

/-! ## Claim theorems: posting and images -/

/-- C5: send_tweet returns -1 when the media argument is absent, returns
-1 when the message cannot be encoded (the UnicodeDecodeError handler),
and otherwise returns the id of the created post; being a total
function, no error propagates. -/
theorem send_tweet_spec (env : TwitterEnv) (message : String)
    (media : Option ImageFile) :
    (media = none → (send_tweet env message media).1 = -1)
    ∧ (env.encodable message = false → (send_tweet env message media).1 = -1)
    ∧ (∀ f, media = some f → env.encodable message = true →
        (send_tweet env message media).1 = env.post_id message) := by
  refine ⟨?_, ?_, ?_⟩
  · intro h
    subst h
    rfl
  · intro h
    cases media with
    | none => rfl
    | some f => simp [send_tweet, h]
  · intro f hf he
    subst hf
    simp [send_tweet, he]

/-- Concrete Twitter environment whose posts always fail to encode. -/
def twEnvBad : TwitterEnv := ⟨fun _ => false, fun _ => 42⟩

/-- Concrete Twitter environment whose posts always encode. -/
def twEnvGood : TwitterEnv := ⟨fun _ => true, fun _ => 42⟩

/-- Concrete message used in closed statements. -/
def msgW : String := "hello"

/-- Concrete readable image file used in closed statements. -/
def fileW : ImageFile := ⟨⟨2048, 1024, fun _ _ => 0⟩, true⟩

/-- C5 witness: the three cases of send_tweet_spec at concrete inputs. -/
theorem send_tweet_spec_witness :
    (send_tweet twEnvGood msgW none).1 = -1
    ∧ (send_tweet twEnvBad msgW (some fileW)).1 = -1
    ∧ (send_tweet twEnvGood msgW (some fileW)).1 = twEnvGood.post_id msgW :=
  ⟨(send_tweet_spec twEnvGood msgW none).1 rfl,
   (send_tweet_spec twEnvBad msgW (some fileW)).2.1 rfl,
   (send_tweet_spec twEnvGood msgW (some fileW)).2.2 fileW rfl rfl⟩

/-- C6: on an unreadable image file (IOError inside resize_image) the
handler logs an error and the file is left exactly as it was; the
function is total, so the error does not propagate to the caller. -/
theorem resize_image_unreadable_unmodified (f : ImageFile)
    (h : f.readable = false) : resize_image f = (f, true) := by
  simp [resize_image, h]

/-- Concrete unreadable image file used in closed statements. -/
def badFileW : ImageFile := ⟨⟨10, 20, fun _ _ => 3⟩, false⟩

/-- C6 witness: resize_image on a concrete unreadable file. -/
theorem resize_image_unreadable_unmodified_witness :
    badFileW.readable = false ∧ resize_image badFileW = (badFileW, true) :=
  ⟨rfl, resize_image_unreadable_unmodified badFileW rfl⟩

/-! ## Helper lemmas about images -/

/-- pasteRow keeps the canvas dimensions. -/
theorem pasteRow_dims : ∀ (l : List Image) (c : Image) (x0 : Nat),
    (pasteRow c x0 l).width = c.width ∧ (pasteRow c x0 l).height = c.height := by
  intro l
  induction l with
  | nil => intro c x0; exact ⟨rfl, rfl⟩
  | cons im rest ih =>
    intro c x0
    have h := ih (pasteAt c im x0) (x0 + im.width)
    simpa [pasteRow, pasteAt] using h

/-- Pixels strictly left of the running offset are never touched by the
remaining pastes. -/
theorem pasteRow_pix_left : ∀ (l : List Image) (c : Image) (x0 x y : Nat),
    x < x0 → (pasteRow c x0 l).pix x y = c.pix x y := by
  intro l
  induction l with
  | nil => intro c x0 x y _; rfl
  | cons im rest ih =>
    intro c x0 x y hx
    have hx2 : x < x0 + im.width := Nat.lt_of_lt_of_le hx (Nat.le_add_right _ _)
    have h := ih (pasteAt c im x0) (x0 + im.width) x y hx2
    show (pasteRow (pasteAt c im x0) (x0 + im.width) rest).pix x y = c.pix x y
    rw [h]
    simp [pasteAt, Nat.not_le.mpr hx]

/-- The pixel of the canvas at the cumulative offset of an image in the
row, inside that image, is the pixel of that image: the images sit left
to right at offsets given by the widths before them. -/
theorem pasteRow_pix_at : ∀ (l1 : List Image) (im : Image) (l2 : List Image)
    (c : Image) (x0 x y : Nat), x < im.width → y < im.height →
    (pasteRow c x0 (l1 ++ im :: l2)).pix (x0 + (l1.map Image.width).sum + x) y
      = im.pix x y := by
  intro l1
  induction l1 with
  | nil =>
    intro im l2 c x0 x y hx hy
    show (pasteRow (pasteAt c im x0) (x0 + im.width) l2).pix
        (x0 + (List.map Image.width []).sum + x) y = im.pix x y
    have hlt : x0 + (List.map Image.width []).sum + x < x0 + im.width := by
      simp only [List.map_nil, List.sum_nil]
      omega
    rw [pasteRow_pix_left l2 _ _ _ _ hlt]
    have hcond : x0 ≤ x0 + (List.map Image.width []).sum + x
        ∧ x0 + (List.map Image.width []).sum + x < x0 + im.width
        ∧ y < im.height := by
      refine ⟨by omega, hlt, hy⟩
    show (if x0 ≤ x0 + (List.map Image.width []).sum + x
        ∧ x0 + (List.map Image.width []).sum + x < x0 + im.width
        ∧ y < im.height
        then im.pix (x0 + (List.map Image.width []).sum + x - x0) y
        else c.pix (x0 + (List.map Image.width []).sum + x) y) = im.pix x y
    rw [if_pos hcond]
    have hco : x0 + (List.map Image.width []).sum + x - x0 = x := by
      simp only [List.map_nil, List.sum_nil]
      omega
    rw [hco]
  | cons a l1 ih =>
    intro im l2 c x0 x y hx hy
    show (pasteRow (pasteAt c a x0) (x0 + a.width) (l1 ++ im :: l2)).pix
        (x0 + (List.map Image.width (a :: l1)).sum + x) y = im.pix x y
    have hco : x0 + (List.map Image.width (a :: l1)).sum + x
        = x0 + a.width + (List.map Image.width l1).sum + x := by
      rw [List.map_cons, List.sum_cons]
      omega
    rw [hco]
    exact ih im l2 (pasteAt c a x0) (x0 + a.width) x y hx hy

/-- Every element is bounded by the foldr of Nat.max with neutral 0. -/
theorem le_foldr_max : ∀ (l : List Nat), ∀ a ∈ l, a ≤ l.foldr Nat.max 0 := by
  intro l
  induction l with
  | nil => intro a ha; simp at ha
  | cons b rest ih =>
    intro a ha
    rcases List.mem_cons.mp ha with h | h
    · subst h
      exact Nat.le_max_left _ _
    · exact Nat.le_trans (ih a h) (Nat.le_max_right _ _)

/-- On a nonempty list the foldr of Nat.max with neutral 0 is attained
by some element. -/
theorem foldr_max_mem : ∀ l : List Nat, l ≠ [] → l.foldr Nat.max 0 ∈ l := by
  intro l
  induction l with
  | nil => intro h; exact absurd rfl h
  | cons b rest ih =>
    intro _
    cases rest with
    | nil =>
      simp [Nat.max_eq_left (Nat.zero_le b)]
    | cons c rest2 =>
      rcases Nat.le_total b ((c :: rest2).foldr Nat.max 0) with h | h
      · have he : (b :: c :: rest2).foldr Nat.max 0 = (c :: rest2).foldr Nat.max 0 := by
          show Nat.max b ((c :: rest2).foldr Nat.max 0) = (c :: rest2).foldr Nat.max 0
          exact Nat.max_eq_right h
        rw [he]
        exact List.mem_cons_of_mem b (ih (List.cons_ne_nil _ _))
      · have he : (b :: c :: rest2).foldr Nat.max 0 = b := by
          show Nat.max b ((c :: rest2).foldr Nat.max 0) = b
          exact Nat.max_eq_left h
        rw [he]
        exact List.mem_cons_self _ _

/-- The thumbnail of any image fits the 1024 by 512 box. -/
theorem thumbnail_fits (im : Image) :
    (thumbnail im).width ≤ 1024 ∧ (thumbnail im).height ≤ 512 := by
  unfold thumbnail
  by_cases h1 : im.width ≤ 1024 ∧ im.height ≤ 512
  · rw [if_pos h1]
    exact h1
  · rw [if_neg h1]
    by_cases h2 : im.height * 1024 ≤ im.width * 512
    · rw [if_pos h2]
      have hw : 0 < im.width := by
        rcases Nat.eq_zero_or_pos im.width with h0 | h0
        · exact absurd ⟨by omega, by rw [h0] at h2; omega⟩ h1
        · exact h0
      refine ⟨Nat.le_refl _, ?_⟩
      calc im.height * 1024 / im.width
          ≤ im.width * 512 / im.width := Nat.div_le_div_right h2
        _ = 512 := Nat.mul_div_cancel_left 512 hw
    · rw [if_neg h2]
      have h3 : im.width * 512 < im.height * 1024 := Nat.lt_of_not_le h2
      have hh : 0 < im.height := by
        rcases Nat.eq_zero_or_pos im.height with h0 | h0
        · rw [h0] at h3
          omega
        · exact h0
      refine ⟨?_, Nat.le_refl _⟩
      calc im.width * 512 / im.height
          ≤ im.height * 1024 / im.height := Nat.div_le_div_right (Nat.le_of_lt h3)
        _ = 1024 := Nat.mul_div_cancel_left 1024 hh

/-- An image already inside the box is returned untouched. -/
theorem thumbnail_within (im : Image)
    (h : im.width ≤ 1024 ∧ im.height ≤ 512) : thumbnail im = im := by
  unfold thumbnail
  rw [if_pos h]

/-- An image exceeding the box is downscaled with the aspect ratio
preserved up to floor rounding: one dimension is pinned to the box and
the other is the proportionally scaled one. -/
theorem thumbnail_aspect (im : Image)
    (h : ¬(im.width ≤ 1024 ∧ im.height ≤ 512)) :
    (thumbnail im).height = im.height * (thumbnail im).width / im.width
    ∨ (thumbnail im).width = im.width * (thumbnail im).height / im.height := by
  unfold thumbnail
  rw [if_neg h]
  by_cases h2 : im.height * 1024 ≤ im.width * 512
  · rw [if_pos h2]
    left
    rfl
  · rw [if_neg h2]
    right
    rfl

/-! ## Claim theorem: image composition (C7) -/

/-- C7: merge_card_images concatenates the card images left to right on
a canvas of width the sum of the widths and height the maximum of the
heights (bounded by and attained at an input image); each input image
occupies the horizontal band starting at the sum of the widths before
it.  resize_image then applies PIL thumbnail, whose result fits the
1024 by 512 pixel budget, leaves an image already within the budget
unchanged, and on an oversized image preserves the aspect ratio up to
floor rounding. -/
theorem merge_and_thumbnail_spec (imgs : List Image) (hne : imgs ≠ [])
    (f : ImageFile) (hr : f.readable = true) :
    (merge_card_images imgs).width = (imgs.map Image.width).sum
    ∧ (∀ im ∈ imgs, im.height ≤ (merge_card_images imgs).height)
    ∧ (∃ im ∈ imgs, (merge_card_images imgs).height = im.height)
    ∧ (∀ l1 im l2, imgs = l1 ++ im :: l2 → ∀ x, x < im.width → ∀ y, y < im.height →
        (merge_card_images imgs).pix ((l1.map Image.width).sum + x) y = im.pix x y)
    ∧ (resize_image f).1.content = thumbnail f.content
    ∧ (thumbnail f.content).width ≤ 1024
    ∧ (thumbnail f.content).height ≤ 512
    ∧ (f.content.width ≤ 1024 ∧ f.content.height ≤ 512 →
        thumbnail f.content = f.content)
    ∧ (¬(f.content.width ≤ 1024 ∧ f.content.height ≤ 512) →
        (thumbnail f.content).height
            = f.content.height * (thumbnail f.content).width / f.content.width
        ∨ (thumbnail f.content).width
            = f.content.width * (thumbnail f.content).height / f.content.height) := by
  have hdims := pasteRow_dims imgs
    ⟨(imgs.map Image.width).sum, (imgs.map Image.height).foldr Nat.max 0, fun _ _ => 0⟩ 0
  refine ⟨?_, ?_, ?_, ?_, ?_, (thumbnail_fits f.content).1, (thumbnail_fits f.content).2,
    thumbnail_within f.content, thumbnail_aspect f.content⟩
  · exact hdims.1
  · intro im him
    rw [show (merge_card_images imgs).height
        = (imgs.map Image.height).foldr Nat.max 0 from hdims.2]
    exact le_foldr_max (imgs.map Image.height) im.height (List.mem_map_of_mem Image.height him)
  · have hmem : (imgs.map Image.height).foldr Nat.max 0 ∈ imgs.map Image.height :=
      foldr_max_mem (imgs.map Image.height) (by
        intro he
        exact hne (List.map_eq_nil_iff.mp he))
    rcases List.mem_map.mp hmem with ⟨im, him, heq⟩
    refine ⟨im, him, ?_⟩
    rw [show (merge_card_images imgs).height
        = (imgs.map Image.height).foldr Nat.max 0 from hdims.2]
    exact heq.symm
  · intro l1 im l2 hsplit x hx y hy
    have h := pasteRow_pix_at l1 im l2
      ⟨(imgs.map Image.width).sum, (imgs.map Image.height).foldr Nat.max 0, fun _ _ => 0⟩
      0 x y hx hy
    rw [Nat.zero_add] at h
    unfold merge_card_images
    rw [hsplit]
    rw [hsplit] at h
    exact h
  · simp [resize_image, hr]

/-- Concrete two-image row used in closed statements. -/
def imA : Image := ⟨2, 3, fun _ _ => 5⟩

/-- Second concrete image of the row. -/
def imB : Image := ⟨4, 7, fun _ _ => 9⟩

/-- C7 witness: a concrete two-image merge and a concrete oversized
readable file. -/
theorem merge_and_thumbnail_spec_witness :
    ([imA, imB] ≠ ([] : List Image) ∧ fileW.readable = true)
    ∧ (merge_card_images [imA, imB]).width = ([imA, imB].map Image.width).sum
    ∧ (thumbnail fileW.content).width ≤ 1024
    ∧ (thumbnail fileW.content).height ≤ 512 :=
  ⟨⟨List.cons_ne_nil _ _, rfl⟩,
   (merge_and_thumbnail_spec [imA, imB] (List.cons_ne_nil _ _) fileW rfl).1,
   (merge_and_thumbnail_spec [imA, imB] (List.cons_ne_nil _ _) fileW rfl).2.2.2.2.2.1,
   (merge_and_thumbnail_spec [imA, imB] (List.cons_ne_nil _ _) fileW rfl).2.2.2.2.2.2.1⟩

/-! ## Claim theorems: query validation -/

/-- C9: whenever the query extracted from the submitted url lowercases
to a string containing the disallowed connective as a substring
anywhere, including inside a longer word, test_query rejects the reply
and returns the empty string, whatever the search returns; in
particular also when the query resolves to exactly the two contest
card names. -/
theorem test_query_rejects_or_substring (env : ScryEnv) (db : TweetDb)
    (url q : String) (k : Nat) (entry : ContestEntry) (c0 c1 : CardRef)
    (rest : List CardRef)
    (hq : env.parseQ url = some q)
    (hk : max_key db = some k)
    (he : lookupDb db k = some entry)
    (hc : entry.cards = c0 :: c1 :: rest)
    (hor : strContains orConnective (str_lower q) = true) :
    test_query env db url = some emptyQuery := by
  unfold test_query
  rw [hq]
  simp only [hk, he, hc]
  by_cases hall : ((env.search q).data.all (fun n => [c0.name, c1.name].contains n)) = true
  · rw [if_pos hall, if_pos hor]
  · rw [if_neg hall]

/-- The two contest card names used in closed statements. -/
def nameAlpha : String := "Alpha"

/-- Second contest card name. -/
def nameBeta : String := "Beta"

/-- First contest card reference. -/
def cardAlpha : CardRef := ⟨nameAlpha, nameAlpha⟩

/-- Second contest card reference. -/
def cardBeta : CardRef := ⟨nameBeta, nameBeta⟩

/-- A well-formed contest entry holding the two cards. -/
def entryAB : ContestEntry := ⟨7, [cardAlpha, cardBeta]⟩

/-- A one-entry log holding entryAB under key 0. -/
def dbAB : TweetDb := [(0, entryAB)]

/-- Concrete submitted url used in closed statements. -/
def urlW : String := "https://scryfall.com/search?q=x"

/-- A query rejected only because of the incidental substring inside the
word sorcery. -/
def qSorcery : String := "t:sorcery"

/-- Environment in which every url parses to qSorcery and the search
returns exactly the two contest card names. -/
def envSorcery : ScryEnv := ⟨fun _ => some qSorcery, fun _ => ⟨2, [nameAlpha, nameBeta]⟩⟩

/-- C9 witness: the query resolves to exactly the two contest cards yet
is rejected because sorcery contains the connective as substring. -/
theorem test_query_rejects_or_substring_witness :
    envSorcery.parseQ urlW = some qSorcery
    ∧ max_key dbAB = some 0
    ∧ lookupDb dbAB 0 = some entryAB
    ∧ entryAB.cards = [cardAlpha, cardBeta]
    ∧ strContains orConnective (str_lower qSorcery) = true
    ∧ (envSorcery.search qSorcery).total_cards = 2
    ∧ (envSorcery.search qSorcery).data = [nameAlpha, nameBeta]
    ∧ test_query envSorcery dbAB urlW = some emptyQuery :=
  ⟨rfl, by decide, by decide, rfl, by decide, rfl, rfl,
   test_query_rejects_or_substring envSorcery dbAB urlW qSorcery 0 entryAB
     cardAlpha cardBeta [] rfl (by decide) (by decide) rfl (by decide)⟩

/-- Query without the disallowed connective, resolving to one card. -/
def qAngel : String := "t:angel"

/-- Environment in which every url parses to qAngel and the search
returns a single card, the first contest card, with total_cards 1. -/
def envOneCard : ScryEnv := ⟨fun _ => some qAngel, fun _ => ⟨1, [nameAlpha]⟩⟩

/-- C1 (code evaluated at the failing input): the re-issued search
returns one card, not two, yet test_query accepts the reply and returns
the nonempty query, because the count branch only logs the mismatch and
falls through instead of rejecting. -/
theorem test_query_accepts_wrong_card_count :
    (envOneCard.search qAngel).total_cards = 1
    ∧ test_query envOneCard dbAB urlW = some qAngel
    ∧ some qAngel ≠ (some emptyQuery : Option String) :=
  ⟨rfl, by decide, by decide⟩

/-! ## Claim theorem: results-scan termination (C8) -/

/-- C8: the reply scan terminates early exactly at the two break
conditions.  First part: as soon as the stream reaches a trigger item,
a tweet authored by the bot account or a rate-limit status with error
code 88, the result does not depend on anything after it, so no later
reply is processed.  Second part: on a stream segment free of trigger
items the scan processes everything and continues into the rest of the
stream, so early termination happens only at the two events. -/
theorem get_results_termination (env : ScryEnv) (db : TweetDb) (bot : String) :
    (∀ (pre : List StreamItem) (t : StreamItem) (post : List StreamItem),
        (∀ x ∈ pre, is_trigger bot x = false) → is_trigger bot t = true →
        get_results env db bot (pre ++ t :: post)
          = get_results env db bot (pre ++ [t]))
    ∧ (∀ l : List StreamItem, (∀ x ∈ l, is_trigger bot x = false) →
        ∀ l2 : List StreamItem,
        get_results env db bot (l ++ l2)
          = (get_results env db bot l).bind
              (fun a => (get_results env db bot l2).map (fun b => a ++ b))) := by
  constructor
  · intro pre
    induction pre with
    | nil =>
      intro t post _ ht
      cases t with
      | tweet screen_name urls =>
        have hb : (screen_name == bot) = true := ht
        cases hp : process_urls env db screen_name urls with
        | none => simp [get_results, hp]
        | some es => simp [get_results, hp, hb]
      | status has_message code =>
        have hb : (has_message && code == 88) = true := ht
        simp [get_results, hb]
    | cons a pre ih =>
      intro t post hpre ht
      have ha : is_trigger bot a = false := hpre a (List.mem_cons_self _ _)
      have hpre2 : ∀ x ∈ pre, is_trigger bot x = false :=
        fun x hx => hpre x (List.mem_cons_of_mem _ hx)
      cases a with
      | tweet screen_name urls =>
        have hb : (screen_name == bot) = false := ha
        cases hp : process_urls env db screen_name urls with
        | none => simp [get_results, hp]
        | some es =>
          simp only [List.cons_append, get_results, hp, hb, List.append_eq]
          rw [ih t post hpre2 ht]
      | status has_message code =>
        have hb : (has_message && code == 88) = false := ha
        simp only [List.cons_append, get_results, hb]
        exact ih t post hpre2 ht
  · intro l
    induction l with
    | nil =>
      intro _ l2
      cases h2 : get_results env db bot l2 with
      | none => simp [get_results, h2]
      | some b => simp [get_results, h2]
    | cons a l ih =>
      intro hno l2
      have ha : is_trigger bot a = false := hno a (List.mem_cons_self _ _)
      have hno2 : ∀ x ∈ l, is_trigger bot x = false :=
        fun x hx => hno x (List.mem_cons_of_mem _ hx)
      cases a with
      | tweet screen_name urls =>
        have hb : (screen_name == bot) = false := ha
        cases hp : process_urls env db screen_name urls with
        | none => simp [get_results, hp]
        | some es =>
          simp only [List.cons_append, get_results, hp, hb, List.append_eq]
          rw [ih hno2 l2]
          cases h3 : get_results env db bot l with
          | none => simp [h3]
          | some xs =>
            cases h4 : get_results env db bot l2 with
            | none => simp [h3, h4]
            | some ys => simp [h3, h4]
      | status has_message code =>
        have hb : (has_message && code == 88) = false := ha
        simp only [List.cons_append, get_results, hb]
        exact ih hno2 l2

/-- The bot account name used in closed statements. -/
def botName : String := "bot"

/-- An entrant account name used in closed statements. -/
def userName : String := "user"

/-- C8 witness: both parts applied to concrete streams; the scan over a
harmless status, a rate-limit status and a trailing tweet equals the
scan that stops at the rate-limit status, and a trigger-free prefix
concatenates with the rest of the stream. -/
theorem get_results_termination_witness :
    (∀ x ∈ [StreamItem.status false 0], is_trigger botName x = false)
    ∧ is_trigger botName (StreamItem.status true 88) = true
    ∧ get_results envSorcery dbAB botName
        ([StreamItem.status false 0] ++ StreamItem.status true 88
          :: [StreamItem.tweet userName []])
      = get_results envSorcery dbAB botName
          ([StreamItem.status false 0] ++ [StreamItem.status true 88])
    ∧ get_results envSorcery dbAB botName
        ([StreamItem.status false 0] ++ [StreamItem.tweet userName []])
      = (get_results envSorcery dbAB botName [StreamItem.status false 0]).bind
          (fun a => (get_results envSorcery dbAB botName
              [StreamItem.tweet userName []]).map (fun b => a ++ b)) :=
  ⟨by decide, by decide,
   (get_results_termination envSorcery dbAB botName).1 [StreamItem.status false 0]
     (StreamItem.status true 88) [StreamItem.tweet userName []] (by decide) (by decide),
   (get_results_termination envSorcery dbAB botName).2 [StreamItem.status false 0]
     (by decide) [StreamItem.tweet userName []]⟩

end ScryfallCardGolf
